import Mathlib

/-!
# Verification of the ozed-tech order/quote/RFQ lifecycle and inventory engine

Shallow embedding of the core of the `inventory` app:
`src/inventory/models.py` (data model, `calculate_totals`, line-item `save`
hooks) and `src/inventory/views.py` (the state-transition actions
`adjust_stock`, `confirm_order`, `cancel_order`, `receive_order`,
`create_quote`, `create_revision`, `convert_to_order`, `add_item`), plus the
stock validation in `src/inventory/serializers.py`.

Conventions of the embedding:
* The Item table is a total function `Store : Nat → Item` from primary key to
  row; Django's foreign keys guarantee every referenced row exists.
* Django `DecimalField` money values are exact rationals (`Rat`);
  `IntegerField` quantities are `Int`.
* Each REST action becomes a function returning `Except ApiErr _`; an
  `.error` result models an HTTP 4xx `Response` (or a database
  `IntegrityError` for `.uniqueViolation`), after which no mutation is
  persisted.
-/

/-- `inventory.models.Item` (the fields the core operations read/write:
`name`, `quantity`, `unit_price`). -/
structure Item where
  name : String
  quantity : Int
  unit_price : Rat
  deriving DecidableEq

/-- The Item table: primary key ↦ row. -/
def Store := Nat → Item

/-- Statuses of `inventory.models.SalesOrder.STATUS_CHOICES`. -/
inductive SOStatus where
  | draft | confirmed | processing | shipped | delivered | cancelled
  deriving DecidableEq

/-- Statuses of `inventory.models.SalesOrder.PAYMENT_STATUS_CHOICES`. -/
inductive PayStatus where
  | unpaid | partiallyPaid | paid | refunded
  deriving DecidableEq

/-- `inventory.models.SalesOrderItem`: line of a SalesOrder
(`item` foreign key, `quantity`, `unit_price`, `discount`). -/
structure SalesOrderItem where
  itemId : Nat
  quantity : Int
  unit_price : Rat
  discount : Rat
  deriving DecidableEq

/-- `SalesOrderItem.subtotal`: `(quantity * unit_price) - discount`. -/
def SalesOrderItem.subtotal (l : SalesOrderItem) : Rat :=
  (l.quantity : Rat) * l.unit_price - l.discount

/-- `inventory.models.SalesOrder` (fields used by the core operations). -/
structure SalesOrder where
  order_number : String
  customer : Nat
  contact : Option Nat
  status : SOStatus
  payment_status : PayStatus
  subtotal : Rat
  discount : Rat
  tax : Rat
  shipping_cost : Rat
  total_amount : Rat
  notes : String
  items : List SalesOrderItem
  deriving DecidableEq

/-- `SalesOrder.calculate_totals`: `subtotal = sum(item.subtotal ...)`,
`total_amount = subtotal - discount + tax + shipping_cost`, then save. -/
def SalesOrder.calculate_totals (so : SalesOrder) : SalesOrder :=
  let sub := (so.items.map SalesOrderItem.subtotal).sum
  { so with subtotal := sub
            total_amount := sub - so.discount + so.tax + so.shipping_cost }

/-- Statuses of `inventory.models.PurchaseOrder.STATUS_CHOICES`. -/
inductive POStatus where
  | draft | pending | approved | received | cancelled
  deriving DecidableEq

/-- `inventory.models.PurchaseOrderItem` (`item` FK, `quantity`,
`unit_price`; no discount field). -/
structure PurchaseOrderItem where
  itemId : Nat
  quantity : Int
  unit_price : Rat
  deriving DecidableEq

/-- `inventory.models.PurchaseOrder` (fields used by the core operations;
its totals are derived properties, never stored). -/
structure PurchaseOrder where
  order_number : String
  status : POStatus
  items : List PurchaseOrderItem
  deriving DecidableEq

/-- One entry of the `insufficient_items` error payload
`{'item': ..., 'required': ..., 'available': ...}`. -/
structure StockShortage where
  item : String
  required : Int
  available : Int
  deriving DecidableEq

/-- Error results of the REST actions: `badRequest` is an HTTP 400 with an
`error` string, `insufficientStock` additionally carries the `items` list,
`notFound` is `get_object` failing, and `uniqueViolation` is the database
rejecting an INSERT that collides with a `unique=True` column. -/
inductive ApiErr where
  | badRequest (error : String)
  | insufficientStock (error : String) (items : List StockShortage)
  | notFound
  | uniqueViolation
  deriving DecidableEq

/-! ## Stock update loops

Each Django loop `for line in order.items.all(): line.item.quantity ±= line.quantity;
line.item.save()` is a left fold over the line list. -/

/-- Write a new quantity into one Item row. -/
def updQty (s : Store) (id : Nat) (q : Int) : Store :=
  fun j => if j = id then { s j with quantity := q } else s j

/-- The stock-decrement loop of `SalesOrderViewSet.confirm_order`:
`order_item.item.quantity -= order_item.quantity; order_item.item.save()`. -/
def decStock (s : Store) (lines : List SalesOrderItem) : Store :=
  lines.foldl (fun acc l => updQty acc l.itemId ((acc l.itemId).quantity - l.quantity)) s

/-- The stock-restore loop of `SalesOrderViewSet.cancel_order`:
`order_item.item.quantity += order_item.quantity; order_item.item.save()`. -/
def incStock (s : Store) (lines : List SalesOrderItem) : Store :=
  lines.foldl (fun acc l => updQty acc l.itemId ((acc l.itemId).quantity + l.quantity)) s

/-- The stock-arrival loop of `PurchaseOrderViewSet.receive_order`:
`po_item.item.quantity += po_item.quantity; po_item.item.save()`. -/
def incStockPO (s : Store) (lines : List PurchaseOrderItem) : Store :=
  lines.foldl (fun acc l => updQty acc l.itemId ((acc l.itemId).quantity + l.quantity)) s

/-- The stock-availability scan shared by `confirm_order` (over the order's
lines): collect `{'item', 'required', 'available'}` for every line whose
Item has `item.quantity < line.quantity`. -/
def stockShortages (s : Store) (lines : List SalesOrderItem) : List StockShortage :=
  lines.filterMap fun l =>
    if (s l.itemId).quantity < l.quantity then
      some { item := (s l.itemId).name, required := l.quantity,
             available := (s l.itemId).quantity }
    else none

/-! ## The SalesOrder / PurchaseOrder / Item transition actions -/

/-- `ItemViewSet.adjust_stock` (`views.py:83-109`): reject if
`item.quantity + adjustment < 0`, else persist the new quantity. -/
def adjust_stock (s : Store) (id : Nat) (adjustment : Int) : Except ApiErr Store :=
  if (s id).quantity + adjustment < 0 then
    .error (.badRequest "Cannot reduce stock below zero")
  else
    .ok (updQty s id ((s id).quantity + adjustment))

/-- `SalesOrderViewSet.confirm_order` (`views.py:305-341`): only `draft`
orders; check availability of *all* lines first; on any shortage reject with
the full list and mutate nothing; otherwise decrement stock for every line
and set status to `confirmed`. -/
def confirm_order (s : Store) (so : SalesOrder) : Except ApiErr (Store × SalesOrder) :=
  if so.status ≠ SOStatus.draft then
    .error (.badRequest "Can only confirm draft orders")
  else if (stockShortages s so.items).isEmpty then
    .ok (decStock s so.items, { so with status := SOStatus.confirmed })
  else
    .error (.insufficientStock "Insufficient stock" (stockShortages s so.items))

/-- `SalesOrderViewSet.cancel_order` (`views.py:379-400`): disallowed from
`delivered`/`cancelled`; restore stock only if status is
`confirmed`/`processing`/`shipped`; set status to `cancelled`. -/
def cancel_order (s : Store) (so : SalesOrder) : Except ApiErr (Store × SalesOrder) :=
  if so.status = SOStatus.delivered ∨ so.status = SOStatus.cancelled then
    .error (.badRequest "Cannot cancel delivered or already cancelled orders")
  else
    .ok ((if so.status = SOStatus.confirmed ∨ so.status = SOStatus.processing ∨
             so.status = SOStatus.shipped
          then incStock s so.items else s),
         { so with status := SOStatus.cancelled })

/-- `PurchaseOrderViewSet.receive_order` (`views.py:215-241`): reject when
already `received`, reject unless `approved` or `pending`; otherwise add
every line's quantity to its Item and set status to `received`. -/
def receive_order (s : Store) (po : PurchaseOrder) : Except ApiErr (Store × PurchaseOrder) :=
  if po.status = POStatus.received then
    .error (.badRequest "Order already received")
  else if po.status ≠ POStatus.approved ∧ po.status ≠ POStatus.pending then
    .error (.badRequest "Can only receive approved or pending orders")
  else
    .ok (incStockPO s po.items, { po with status := POStatus.received })

/-! ## Line-item save/delete hooks (models.py / DRF `ModelViewSet`)

`SalesOrderItem.save` and `QuoteItem.save` call the parent's
`calculate_totals` after persisting the row; deleting a line through the
item ViewSets calls Django's plain `Model.delete`, for which no hook is
defined, so no recomputation happens. -/

/-- Creating a SalesOrder line (row INSERT followed by the
`SalesOrderItem.save` hook running `sales_order.calculate_totals()`). -/
def SalesOrder.createItem (so : SalesOrder) (l : SalesOrderItem) : SalesOrder :=
  SalesOrder.calculate_totals { so with items := so.items ++ [l] }

/-- Updating the `i`-th SalesOrder line (row UPDATE followed by the
`SalesOrderItem.save` hook running `sales_order.calculate_totals()`). -/
def SalesOrder.updateItem (so : SalesOrder) (i : Nat) (l : SalesOrderItem) : SalesOrder :=
  SalesOrder.calculate_totals { so with items := so.items.set i l }

/-- Deleting the `i`-th SalesOrder line through
`SalesOrderItemViewSet.destroy`: the row is removed and no hook fires
(`SalesOrderItem` overrides `save` but not `delete`), so the stored totals
are left as they were. -/
def SalesOrder.deleteItem (so : SalesOrder) (i : Nat) : SalesOrder :=
  { so with items := so.items.eraseIdx i }

/-! ## RFQ and Quote (negotiation pipeline) -/

/-- Statuses of `inventory.models.RFQ.STATUS_CHOICES`. -/
inductive RFQStatus where
  | draft | submitted | under_review | quoted | rejected | expired
  deriving DecidableEq

/-- `inventory.models.RFQItem` (`item` FK, `requested_quantity`, `notes`). -/
structure RFQItem where
  itemId : Nat
  requested_quantity : Int
  notes : String
  deriving DecidableEq

/-- `inventory.models.RFQ` (fields used by the core operations). -/
structure RFQ where
  rfq_number : String
  customer : Nat
  contact : Option Nat
  status : RFQStatus
  notes : String
  items : List RFQItem
  deriving DecidableEq

/-- Statuses of `inventory.models.Quote.STATUS_CHOICES`. -/
inductive QStatus where
  | draft | sent | accepted | rejected | expired | negotiating | converted
  deriving DecidableEq

/-- `inventory.models.QuoteItem` (`item` FK, `quantity`, `unit_price`,
`discount`, `notes`). -/
structure QuoteItem where
  itemId : Nat
  quantity : Int
  unit_price : Rat
  discount : Rat
  notes : String
  deriving DecidableEq

/-- `QuoteItem.subtotal`: `(quantity * unit_price) - discount`. -/
def QuoteItem.subtotal (l : QuoteItem) : Rat :=
  (l.quantity : Rat) * l.unit_price - l.discount

/-- `inventory.models.Quote` (fields used by the core operations;
`sales_order` is the conversion link, `none` until `convert_to_order`). -/
structure Quote where
  quote_number : String
  version : Int
  status : QStatus
  customer : Nat
  contact : Option Nat
  subtotal : Rat
  discount : Rat
  tax : Rat
  shipping_cost : Rat
  total_amount : Rat
  payment_terms : String
  delivery_terms : String
  validity_period : String
  notes : String
  sales_order : Option SalesOrder
  items : List QuoteItem
  deriving DecidableEq

/-- `Quote.calculate_totals`: same formula as `SalesOrder.calculate_totals`. -/
def Quote.calculate_totals (q : Quote) : Quote :=
  let sub := (q.items.map QuoteItem.subtotal).sum
  { q with subtotal := sub
           total_amount := sub - q.discount + q.tax + q.shipping_cost }

/-- Creating a Quote line (row INSERT followed by the `QuoteItem.save` hook
running `quote.calculate_totals()`). -/
def Quote.createItem (q : Quote) (l : QuoteItem) : Quote :=
  Quote.calculate_totals { q with items := q.items ++ [l] }

/-- Updating the `i`-th Quote line (row UPDATE followed by the
`QuoteItem.save` hook running `quote.calculate_totals()`). -/
def Quote.updateItem (q : Quote) (i : Nat) (l : QuoteItem) : Quote :=
  Quote.calculate_totals { q with items := q.items.set i l }

/-- Deleting the `i`-th Quote line through `QuoteItemViewSet.destroy`:
no hook fires, totals are left as they were. -/
def Quote.deleteItem (q : Quote) (i : Nat) : Quote :=
  { q with items := q.items.eraseIdx i }

/-- The stock-availability scan of `convert_to_order` over Quote lines. -/
def stockShortagesQ (s : Store) (lines : List QuoteItem) : List StockShortage :=
  lines.filterMap fun l =>
    if (s l.itemId).quantity < l.quantity then
      some { item := (s l.itemId).name, required := l.quantity,
             available := (s l.itemId).quantity }
    else none

/-- The Quote row that `create_quote` INSERTs, once its items are copied
from the RFQ and `quote.calculate_totals()` has run: pricing fields at the
model defaults, `customer`/`contact` copied from the RFQ, one QuoteItem per
RFQItem (`requested_quantity` → `quantity`, the Item's current `unit_price`
snapshotted, `notes` carried over). -/
def rfqToQuote (s : Store) (rfq : RFQ) (qn : String)
    (delivery_terms notes : String) : Quote :=
  Quote.calculate_totals
    { quote_number := qn.toUpper, version := 1, status := QStatus.draft,
      customer := rfq.customer, contact := rfq.contact,
      subtotal := 0, discount := 0, tax := 0, shipping_cost := 0,
      total_amount := 0, payment_terms := "net_30",
      delivery_terms := delivery_terms, validity_period := "30 days",
      notes := notes, sales_order := none,
      items := rfq.items.map fun ri =>
        { itemId := ri.itemId, quantity := ri.requested_quantity,
          unit_price := (s ri.itemId).unit_price, discount := 0,
          notes := ri.notes } }

/-- `RFQViewSet.create_quote` (`views.py:550-600`): only from
`under_review`/`submitted`; requires a non-empty `quote_number`; INSERTs
`rfqToQuote` (which violates the `unique=True` constraint on
`Quote.quote_number` when the number is already taken in `db`, the stored
Quote rows); finally sets the RFQ status to `quoted` (the RFQ items are
not touched). -/
def create_quote (s : Store) (db : List Quote) (rfq : RFQ)
    (quote_number : Option String) (delivery_terms notes : String) :
    Except ApiErr (List Quote × RFQ × Quote) :=
  if rfq.status ≠ RFQStatus.under_review ∧ rfq.status ≠ RFQStatus.submitted then
    .error (.badRequest "RFQ must be under review to create quote")
  else
    match quote_number with
    | none => .error (.badRequest "quote_number is required")
    | some qn =>
      if qn = "" then .error (.badRequest "quote_number is required")
      else if db.any (fun q => q.quote_number = qn.toUpper) then .error .uniqueViolation
      else
        .ok (db ++ [rfqToQuote s rfq qn delivery_terms notes],
             { rfq with status := RFQStatus.quoted },
             rfqToQuote s rfq qn delivery_terms notes)

/-- The Quote row that `QuoteViewSet.create_revision` attempts to INSERT
from `original_quote`: same `quote_number`, `version + 1`, status `draft`,
pricing-policy fields and all line items copied, totals recomputed. -/
def reviseQuote (orig : Quote) : Quote :=
  Quote.calculate_totals
    { quote_number := orig.quote_number, version := orig.version + 1,
      status := QStatus.draft, customer := orig.customer, contact := orig.contact,
      subtotal := 0, discount := orig.discount, tax := orig.tax,
      shipping_cost := orig.shipping_cost, total_amount := 0,
      payment_terms := orig.payment_terms, delivery_terms := orig.delivery_terms,
      validity_period := orig.validity_period, notes := orig.notes,
      sales_order := none,
      items := orig.items.map fun l =>
        { itemId := l.itemId, quantity := l.quantity, unit_price := l.unit_price,
          discount := l.discount, notes := l.notes } }

/-- `QuoteViewSet.create_revision` (`views.py:721-760`) against the stored
Quote table `db`: look up the original at index `i` and INSERT
`reviseQuote original`.  `Quote.quote_number` is declared `unique=True`
(`models.py:328`), so the INSERT raises `IntegrityError` whenever any
stored row — in particular the original itself — already carries that
quote number. -/
def create_revision (db : List Quote) (i : Nat) : Except ApiErr (List Quote × Quote) :=
  match db[i]? with
  | none => .error .notFound
  | some orig =>
    let new_quote := reviseQuote orig
    if db.any (fun q => q.quote_number = new_quote.quote_number) then
      .error .uniqueViolation
    else
      .ok (db ++ [new_quote], new_quote)

/-- The SalesOrder row that `convert_to_order` creates from an accepted
quote, after its lines are copied 1:1 and `calculate_totals` has run:
`draft`/`unpaid`, customer/contact/discount/tax/shipping copied, the note
referencing the quote number. -/
def quoteToSalesOrder (q : Quote) (n : String) : SalesOrder :=
  SalesOrder.calculate_totals
    { order_number := n.toUpper, customer := q.customer,
      contact := q.contact, status := SOStatus.draft,
      payment_status := PayStatus.unpaid,
      subtotal := 0, discount := q.discount, tax := q.tax,
      shipping_cost := q.shipping_cost, total_amount := 0,
      notes := "Converted from Quote " ++ q.quote_number ++ ". " ++ q.notes,
      items := q.items.map fun l =>
        { itemId := l.itemId, quantity := l.quantity,
          unit_price := l.unit_price, discount := l.discount } }

/-- `QuoteViewSet.convert_to_order` (`views.py:762-835`): only `accepted`
quotes; reject if the `sales_order` link is already set; check stock for all
lines (no decrement anywhere — the Store is returned untouched); require an
`order_number` (uppercased, unique among `existing` SalesOrder numbers);
create the SalesOrder in `draft`/`unpaid` copying
customer/contact/discount/tax/shipping with a note referencing the quote,
copy the lines 1:1, recompute its totals; set `quote.sales_order` to the
new order and `quote.status` to `converted`. -/
def convert_to_order (s : Store) (existing : List String) (q : Quote)
    (order_number : Option String) :
    Except ApiErr (Store × Quote × SalesOrder) :=
  if q.status ≠ QStatus.accepted then
    .error (.badRequest "Only accepted quotes can be converted to orders")
  else if q.sales_order.isSome then
    .error (.badRequest "Quote has already been converted to an order")
  else if (stockShortagesQ s q.items).isEmpty then
    match order_number with
    | none => .error (.badRequest "order_number is required")
    | some n =>
      if n = "" then .error (.badRequest "order_number is required")
      else if n.toUpper ∈ existing then .error .uniqueViolation
      else
        .ok (s, { q with sales_order := some (quoteToSalesOrder q n),
                         status := QStatus.converted },
             quoteToSalesOrder q n)
  else
    .error (.insufficientStock "Insufficient stock" (stockShortagesQ s q.items))

/-- Input accepted by `SalesOrderItemSerializer` for
`SalesOrderViewSet.add_item`. -/
structure SOItemInput where
  itemId : Nat
  quantity : Int
  unit_price : Rat
  discount : Rat
  deriving DecidableEq

/-- `SalesOrderViewSet.add_item` (`views.py:270-285`) with the
`SalesOrderItemSerializer` validation (`serializers.py:125-150`): order must
be `draft` or `confirmed`; `validate_quantity` requires `quantity ≥ 1`; the
model validator requires `unit_price ≥ 0.01`; `validate` rejects the line
when `item.quantity < quantity` (Insufficient stock); on success the line is
saved (triggering `calculate_totals`).  The Item table is returned
unchanged: line creation never writes stock. -/
def add_item (s : Store) (so : SalesOrder) (inp : SOItemInput) :
    Except ApiErr (Store × SalesOrder) :=
  if so.status ≠ SOStatus.draft ∧ so.status ≠ SOStatus.confirmed then
    .error (.badRequest ("Cannot add items to orders with status: "))
  else if inp.quantity < 1 then
    .error (.badRequest "Quantity must be at least 1")
  else if inp.unit_price < (0.01 : Rat) then
    .error (.badRequest "Ensure this value is greater than or equal to 0.01.")
  else if (s inp.itemId).quantity < inp.quantity then
    .error (.badRequest "Insufficient stock")
  else
    .ok (s, SalesOrder.createItem so
      { itemId := inp.itemId, quantity := inp.quantity,
        unit_price := inp.unit_price, discount := inp.discount })

/-! ## System state and operation sequences

One shared durable store: the Item table plus the order tables.  A rejected
request sends an error `Response` and persists nothing, so running an
operation keeps the previous state on `.error`. -/

/-- The durable state the stock-affecting operations act on. -/
structure Sys where
  store : Store
  salesOrders : List SalesOrder
  purchaseOrders : List PurchaseOrder

/-- The stock-affecting requests of §4.2 of the spec, addressed by table
index (the REST `pk`). -/
inductive Op where
  | adjustStock (itemId : Nat) (adjustment : Int)
  | confirmOrder (i : Nat)
  | cancelOrder (i : Nat)
  | receiveOrder (i : Nat)

/-- Dispatch one request against the state. -/
def applyOp (sys : Sys) : Op → Except ApiErr Sys
  | .adjustStock id adj =>
    match adjust_stock sys.store id adj with
    | .error e => .error e
    | .ok st => .ok { sys with store := st }
  | .confirmOrder i =>
    match sys.salesOrders[i]? with
    | none => .error .notFound
    | some so =>
      match confirm_order sys.store so with
      | .error e => .error e
      | .ok (st, so') =>
        .ok { sys with store := st, salesOrders := sys.salesOrders.set i so' }
  | .cancelOrder i =>
    match sys.salesOrders[i]? with
    | none => .error .notFound
    | some so =>
      match cancel_order sys.store so with
      | .error e => .error e
      | .ok (st, so') =>
        .ok { sys with store := st, salesOrders := sys.salesOrders.set i so' }
  | .receiveOrder i =>
    match sys.purchaseOrders[i]? with
    | none => .error .notFound
    | some po =>
      match receive_order sys.store po with
      | .error e => .error e
      | .ok (st, po') =>
        .ok { sys with store := st, purchaseOrders := sys.purchaseOrders.set i po' }

/-- Run one request: a rejected request persists nothing. -/
def stepOp (sys : Sys) (op : Op) : Sys :=
  match applyOp sys op with
  | .ok sys' => sys'
  | .error _ => sys

/-- Run a sequence of requests. -/
def runOps (sys : Sys) (ops : List Op) : Sys :=
  ops.foldl stepOp sys

/-- Every Item row has non-negative stock
(the `MinValueValidator(0)` invariant on `Item.quantity`). -/
def NonnegStock (sys : Sys) : Prop :=
  ∀ id : Nat, 0 ≤ (sys.store id).quantity

/-- Database well-formedness the models enforce on order lines:
`MinValueValidator(1)` on every line quantity, and the
`unique_together (order, item)` constraint (no two lines of one order
reference the same Item). -/
def SysWF (sys : Sys) : Prop :=
  (∀ so ∈ sys.salesOrders,
      (∀ l ∈ so.items, 1 ≤ l.quantity) ∧
      (so.items.map SalesOrderItem.itemId).Nodup) ∧
  (∀ po ∈ sys.purchaseOrders, ∀ l ∈ po.items, 1 ≤ l.quantity)

/-! ## Specification predicates and concrete fixtures -/

/-- The §8 totals invariant for a SalesOrder header:
`subtotal = Σ line.subtotal` and
`total = subtotal - discount + tax + shipping`. -/
def SalesOrder.totalsOk (so : SalesOrder) : Prop :=
  so.subtotal = (so.items.map SalesOrderItem.subtotal).sum ∧
  so.total_amount = (so.items.map SalesOrderItem.subtotal).sum
    - so.discount + so.tax + so.shipping_cost

/-- The §8 totals invariant for a Quote header. -/
def Quote.totalsOk (q : Quote) : Prop :=
  q.subtotal = (q.items.map QuoteItem.subtotal).sum ∧
  q.total_amount = (q.items.map QuoteItem.subtotal).sum
    - q.discount + q.tax + q.shipping_cost

/-- Fixture: every Item row is a widget with 10 in stock at unit price 5. -/
def demoStore : Store :=
  fun _ => { name := "Widget", quantity := 10, unit_price := 5 }

/-- Fixture: an empty draft SalesOrder with clean totals. -/
def emptySO : SalesOrder :=
  { order_number := "SO-1", customer := 1, contact := none,
    status := SOStatus.draft, payment_status := PayStatus.unpaid,
    subtotal := 0, discount := 0, tax := 0, shipping_cost := 0,
    total_amount := 0, notes := "", items := [] }

/-- Fixture: the empty order after creating one line (2 × 5), so its stored
totals were just recomputed to 10. -/
def demoSOWithLine : SalesOrder :=
  SalesOrder.createItem emptySO
    { itemId := 1, quantity := 2, unit_price := 5, discount := 0 }

/-- Fixture: a draft order asking 4 widgets (in stock). -/
def demoDraftSO : SalesOrder :=
  { emptySO with
    items := [{ itemId := 1, quantity := 4, unit_price := 5, discount := 0 }] }

/-- Fixture: a draft order asking 50 widgets (only 10 in stock). -/
def demoShortSO : SalesOrder :=
  { emptySO with
    items := [{ itemId := 1, quantity := 50, unit_price := 5, discount := 0 }] }

/-- Fixture: an approved PurchaseOrder for 3 of item 2. -/
def demoPO : PurchaseOrder :=
  { order_number := "PO-1", status := POStatus.approved,
    items := [{ itemId := 2, quantity := 3, unit_price := 2 }] }

/-- Fixture: a whole system state. -/
def demoSys : Sys :=
  { store := demoStore, salesOrders := [demoDraftSO], purchaseOrders := [demoPO] }

/-- Fixture: a request sequence touching all four operations. -/
def demoOps : List Op :=
  [Op.confirmOrder 0, Op.receiveOrder 0, Op.cancelOrder 0, Op.adjustStock 1 (-6)]

/-- Fixture: an RFQ under review with two lines. -/
def demoRFQ : RFQ :=
  { rfq_number := "RFQ-1", customer := 1, contact := none,
    status := RFQStatus.under_review, notes := "",
    items := [{ itemId := 1, requested_quantity := 3, notes := "a" },
              { itemId := 2, requested_quantity := 2, notes := "b" }] }

/-- Fixture: an accepted Quote for 4 widgets, not yet converted. -/
def demoAcceptedQuote : Quote :=
  { quote_number := "Q-1", version := 1, status := QStatus.accepted,
    customer := 1, contact := none, subtotal := 20, discount := 0, tax := 0,
    shipping_cost := 0, total_amount := 20, payment_terms := "net_30",
    delivery_terms := "", validity_period := "30 days", notes := "",
    sales_order := none,
    items := [{ itemId := 1, quantity := 4, unit_price := 5, discount := 0,
                notes := "" }] }

/-- Fixture: the quote as stored after its first (successful) conversion. -/
def demoConvertedQuote : Quote :=
  match convert_to_order demoStore [] demoAcceptedQuote (some "SO-9") with
  | .ok (_, q, _) => q
  | .error _ => demoAcceptedQuote

/-- Fixture: an add-item request for 50 widgets (only 10 in stock). -/
def demoInput : SOItemInput :=
  { itemId := 1, quantity := 50, unit_price := 5, discount := 0 }

/-- Fixture: store and order after confirming `demoDraftSO`. -/
def demoConfirmed : Store × SalesOrder :=
  match confirm_order demoStore demoDraftSO with
  | .ok r => r
  | .error _ => (demoStore, demoDraftSO)

/-- Fixture: store and order after then cancelling the confirmed order. -/
def demoCancelled : Store × SalesOrder :=
  match cancel_order demoConfirmed.1 demoConfirmed.2 with
  | .ok r => r
  | .error _ => demoConfirmed

/-! ## Pointwise characterization of the stock-update folds -/

/-- Generic form of one stock-update loop: each pair is (item pk, signed
quantity change). -/
def bumpAll (s : Store) (ps : List (Nat × Int)) : Store :=
  ps.foldl (fun acc p => updQty acc p.1 ((acc p.1).quantity + p.2)) s

/-- Net change a loop applies to one Item row. -/
def deltaFor (ps : List (Nat × Int)) (id : Nat) : Int :=
  ps.foldr (fun p a => (if p.1 = id then p.2 else 0) + a) 0

lemma deltaFor_cons (p : Nat × Int) (ps : List (Nat × Int)) (id : Nat) :
    deltaFor (p :: ps) id = (if p.1 = id then p.2 else 0) + deltaFor ps id := rfl

lemma bumpAll_apply (ps : List (Nat × Int)) (s : Store) (id : Nat) :
    bumpAll s ps id = { s id with quantity := (s id).quantity + deltaFor ps id } := by
  induction ps generalizing s with
  | nil => simp [bumpAll, deltaFor]
  | cons p ps ih =>
    have hstep : bumpAll s (p :: ps) = bumpAll (updQty s p.1 ((s p.1).quantity + p.2)) ps := rfl
    rw [hstep, ih, deltaFor_cons]
    by_cases h : id = p.1
    · subst h
      simp [updQty]
      omega
    · have hne : ¬ p.1 = id := fun hp => h hp.symm
      simp [updQty, h, hne]

lemma deltaFor_eq_zero_of_not_mem (ps : List (Nat × Int)) (id : Nat)
    (h : id ∉ ps.map Prod.fst) : deltaFor ps id = 0 := by
  induction ps with
  | nil => rfl
  | cons p ps ih =>
    simp only [List.map_cons, List.mem_cons, not_or] at h
    rw [deltaFor_cons, if_neg (fun hp => h.1 hp.symm), ih h.2, zero_add]

lemma deltaFor_eq_of_nodup (ps : List (Nat × Int)) (p : Nat × Int)
    (hnd : (ps.map Prod.fst).Nodup) (hmem : p ∈ ps) : deltaFor ps p.1 = p.2 := by
  induction ps with
  | nil => cases hmem
  | cons a ps ih =>
    simp only [List.map_cons, List.nodup_cons] at hnd
    rcases List.mem_cons.mp hmem with h | h
    · subst h
      rw [deltaFor_cons, if_pos rfl, deltaFor_eq_zero_of_not_mem _ _ hnd.1, add_zero]
    · have hne : a.1 ≠ p.1 := by
        intro he
        exact hnd.1 (he ▸ List.mem_map_of_mem Prod.fst h)
      rw [deltaFor_cons, if_neg hne, ih hnd.2 h, zero_add]

lemma deltaFor_nonneg (ps : List (Nat × Int)) (id : Nat)
    (h : ∀ p ∈ ps, 0 ≤ p.2) : 0 ≤ deltaFor ps id := by
  induction ps with
  | nil => simp [deltaFor]
  | cons p ps ih =>
    rw [deltaFor_cons]
    have h1 := h p (List.mem_cons_self p ps)
    have h2 := ih (fun q hq => h q (List.mem_cons_of_mem p hq))
    by_cases hp : p.1 = id <;> simp [hp] <;> omega

lemma incStock_eq_bumpAll (s : Store) (lines : List SalesOrderItem) :
    incStock s lines = bumpAll s (lines.map fun l => (l.itemId, l.quantity)) := by
  rw [incStock, bumpAll, List.foldl_map]

lemma incStockPO_eq_bumpAll (s : Store) (lines : List PurchaseOrderItem) :
    incStockPO s lines = bumpAll s (lines.map fun l => (l.itemId, l.quantity)) := by
  rw [incStockPO, bumpAll, List.foldl_map]

lemma decStock_eq_bumpAll (s : Store) (lines : List SalesOrderItem) :
    decStock s lines = bumpAll s (lines.map fun l => (l.itemId, -l.quantity)) := by
  rw [decStock, bumpAll, List.foldl_map]
  simp only [Int.sub_eq_add_neg]

lemma incStock_apply (s : Store) (lines : List SalesOrderItem) (id : Nat) :
    incStock s lines id =
      { s id with quantity :=
          (s id).quantity + deltaFor (lines.map fun l => (l.itemId, l.quantity)) id } := by
  rw [incStock_eq_bumpAll]
  exact bumpAll_apply _ _ _

lemma incStockPO_apply (s : Store) (lines : List PurchaseOrderItem) (id : Nat) :
    incStockPO s lines id =
      { s id with quantity :=
          (s id).quantity + deltaFor (lines.map fun l => (l.itemId, l.quantity)) id } := by
  rw [incStockPO_eq_bumpAll]
  exact bumpAll_apply _ _ _

lemma decStock_apply (s : Store) (lines : List SalesOrderItem) (id : Nat) :
    decStock s lines id =
      { s id with quantity :=
          (s id).quantity + deltaFor (lines.map fun l => (l.itemId, -l.quantity)) id } := by
  rw [decStock_eq_bumpAll]
  exact bumpAll_apply _ _ _

lemma deltaFor_neg_map (lines : List SalesOrderItem) (id : Nat) :
    deltaFor (lines.map fun l => (l.itemId, -l.quantity)) id =
      - deltaFor (lines.map fun l => (l.itemId, l.quantity)) id := by
  induction lines with
  | nil => simp [deltaFor]
  | cons l ls ih =>
    simp only [List.map_cons, deltaFor_cons, ih]
    by_cases h : l.itemId = id <;> simp [h]
    omega

/-- A line's net decrement under `decStock`, when no other line of the order
references the same Item (the `unique_together` constraint). -/
lemma decStock_line (s : Store) (lines : List SalesOrderItem)
    (hnd : (lines.map SalesOrderItem.itemId).Nodup) (l : SalesOrderItem)
    (hl : l ∈ lines) :
    (decStock s lines l.itemId).quantity = (s l.itemId).quantity - l.quantity := by
  rw [decStock_apply]
  have h := deltaFor_eq_of_nodup (lines.map fun l => (l.itemId, -l.quantity))
    (l.itemId, -l.quantity)
    (by simpa [List.map_map, Function.comp] using hnd)
    (List.mem_map_of_mem _ hl)
  simp only [h]
  omega

/-- Untouched Item rows are unchanged by `decStock`. -/
lemma decStock_untouched (s : Store) (lines : List SalesOrderItem) (id : Nat)
    (h : id ∉ lines.map SalesOrderItem.itemId) : decStock s lines id = s id := by
  rw [decStock_apply, deltaFor_eq_zero_of_not_mem]
  · simp
  · simpa [List.map_map, Function.comp] using h

/-- A line's net increment under `incStockPO`, when no other line references
the same Item. -/
lemma incStockPO_line (s : Store) (lines : List PurchaseOrderItem)
    (hnd : (lines.map PurchaseOrderItem.itemId).Nodup) (l : PurchaseOrderItem)
    (hl : l ∈ lines) :
    (incStockPO s lines l.itemId).quantity = (s l.itemId).quantity + l.quantity := by
  rw [incStockPO_apply]
  have h := deltaFor_eq_of_nodup (lines.map fun l => (l.itemId, l.quantity))
    (l.itemId, l.quantity)
    (by simpa [List.map_map, Function.comp] using hnd)
    (List.mem_map_of_mem _ hl)
  simp only [h]

/-- Untouched Item rows are unchanged by `incStockPO`. -/
lemma incStockPO_untouched (s : Store) (lines : List PurchaseOrderItem) (id : Nat)
    (h : id ∉ lines.map PurchaseOrderItem.itemId) : incStockPO s lines id = s id := by
  rw [incStockPO_apply, deltaFor_eq_zero_of_not_mem]
  · simp
  · simpa [List.map_map, Function.comp] using h

lemma stockShortages_eq_nil_iff (s : Store) (lines : List SalesOrderItem) :
    stockShortages s lines = [] ↔
      ∀ l ∈ lines, ¬ (s l.itemId).quantity < l.quantity := by
  constructor
  · intro h l hl hlt
    have : (stockShortages s lines) ≠ [] := by
      have hmem : ({ item := (s l.itemId).name, required := l.quantity,
                     available := (s l.itemId).quantity } : StockShortage)
          ∈ stockShortages s lines := by
        rw [stockShortages, List.mem_filterMap]
        exact ⟨l, hl, by rw [if_pos hlt]⟩
      intro hnil
      rw [hnil] at hmem
      cases hmem
    exact this h
  · intro h
    rw [stockShortages, List.filterMap_eq_nil_iff]
    intro l hl
    rw [if_neg (h l hl)]

lemma stockShortagesQ_eq_nil_iff (s : Store) (lines : List QuoteItem) :
    stockShortagesQ s lines = [] ↔
      ∀ l ∈ lines, ¬ (s l.itemId).quantity < l.quantity := by
  constructor
  · intro h l hl hlt
    have : (stockShortagesQ s lines) ≠ [] := by
      have hmem : ({ item := (s l.itemId).name, required := l.quantity,
                     available := (s l.itemId).quantity } : StockShortage)
          ∈ stockShortagesQ s lines := by
        rw [stockShortagesQ, List.mem_filterMap]
        exact ⟨l, hl, by rw [if_pos hlt]⟩
      intro hnil
      rw [hnil] at hmem
      cases hmem
    exact this h
  · intro h
    rw [stockShortagesQ, List.filterMap_eq_nil_iff]
    intro l hl
    rw [if_neg (h l hl)]

/-! ## Inversion of the transition actions -/

lemma confirm_order_ok_inv {s : Store} {so : SalesOrder} {st : Store}
    {so' : SalesOrder} (h : confirm_order s so = .ok (st, so')) :
    so.status = SOStatus.draft ∧ stockShortages s so.items = [] ∧
    st = decStock s so.items ∧ so' = { so with status := SOStatus.confirmed } := by
  rw [confirm_order] at h
  split at h
  · cases h
  · next hstat =>
    split at h
    · next hemp =>
      simp only [Except.ok.injEq, Prod.mk.injEq] at h
      exact ⟨not_not.mp hstat, List.isEmpty_iff.mp hemp, h.1.symm, h.2.symm⟩
    · cases h

lemma cancel_order_ok_inv {s : Store} {so : SalesOrder} {st : Store}
    {so' : SalesOrder} (h : cancel_order s so = .ok (st, so')) :
    ¬ (so.status = SOStatus.delivered ∨ so.status = SOStatus.cancelled) ∧
    st = (if so.status = SOStatus.confirmed ∨ so.status = SOStatus.processing ∨
             so.status = SOStatus.shipped
          then incStock s so.items else s) ∧
    so' = { so with status := SOStatus.cancelled } := by
  rw [cancel_order] at h
  split at h
  · cases h
  · next hguard =>
    simp only [Except.ok.injEq, Prod.mk.injEq] at h
    exact ⟨hguard, h.1.symm, h.2.symm⟩

lemma receive_order_ok_inv {s : Store} {po : PurchaseOrder} {st : Store}
    {po' : PurchaseOrder} (h : receive_order s po = .ok (st, po')) :
    (po.status = POStatus.approved ∨ po.status = POStatus.pending) ∧
    st = incStockPO s po.items ∧
    po' = { po with status := POStatus.received } := by
  rw [receive_order] at h
  split at h
  · cases h
  · split at h
    · cases h
    · next hg =>
      simp only [Except.ok.injEq, Prod.mk.injEq] at h
      refine ⟨?_, h.1.symm, h.2.symm⟩
      rcases Decidable.not_and_iff_or_not.mp hg with hc | hc
      · exact Or.inl (not_not.mp hc)
      · exact Or.inr (not_not.mp hc)

lemma adjust_stock_ok_inv {s : Store} {id : Nat} {adj : Int} {st : Store}
    (h : adjust_stock s id adj = .ok st) :
    0 ≤ (s id).quantity + adj ∧ st = updQty s id ((s id).quantity + adj) := by
  rw [adjust_stock] at h
  split at h
  · cases h
  · next hneg =>
    simp only [Except.ok.injEq] at h
    exact ⟨by omega, h.symm⟩

/-! ## Preservation of the stock invariant -/

lemma decStock_nonneg (s : Store) (lines : List SalesOrderItem)
    (hnd : (lines.map SalesOrderItem.itemId).Nodup)
    (hav : ∀ l ∈ lines, ¬ (s l.itemId).quantity < l.quantity)
    (hnn : ∀ id : Nat, 0 ≤ (s id).quantity) :
    ∀ id : Nat, 0 ≤ (decStock s lines id).quantity := by
  intro id
  by_cases hid : id ∈ lines.map SalesOrderItem.itemId
  · obtain ⟨l, hl, rfl⟩ := List.mem_map.mp hid
    rw [decStock_line s lines hnd l hl]
    have := hav l hl
    omega
  · rw [decStock_untouched s lines id hid]
    exact hnn id

lemma incStock_nonneg (s : Store) (lines : List SalesOrderItem)
    (hpos : ∀ l ∈ lines, 1 ≤ l.quantity)
    (hnn : ∀ id : Nat, 0 ≤ (s id).quantity) :
    ∀ id : Nat, 0 ≤ (incStock s lines id).quantity := by
  intro id
  rw [incStock_apply]
  have h := deltaFor_nonneg (lines.map fun l => (l.itemId, l.quantity)) id ?_
  · have := hnn id
    simp only []
    omega
  · intro p hp
    obtain ⟨l, hl, rfl⟩ := List.mem_map.mp hp
    have := hpos l hl
    omega

lemma incStockPO_nonneg (s : Store) (lines : List PurchaseOrderItem)
    (hpos : ∀ l ∈ lines, 1 ≤ l.quantity)
    (hnn : ∀ id : Nat, 0 ≤ (s id).quantity) :
    ∀ id : Nat, 0 ≤ (incStockPO s lines id).quantity := by
  intro id
  rw [incStockPO_apply]
  have h := deltaFor_nonneg (lines.map fun l => (l.itemId, l.quantity)) id ?_
  · have := hnn id
    simp only []
    omega
  · intro p hp
    obtain ⟨l, hl, rfl⟩ := List.mem_map.mp hp
    have := hpos l hl
    omega

lemma mem_of_lookup {α : Type} {l : List α} {i : Nat} {a : α}
    (h : l[i]? = some a) : a ∈ l := by
  obtain ⟨hlt, rfl⟩ := List.getElem?_eq_some_iff.mp h
  exact List.getElem_mem hlt

/-- One request preserves database well-formedness and the non-negative
stock invariant. -/
lemma stepOp_preserves (sys : Sys) (op : Op)
    (hwf : SysWF sys) (hnn : NonnegStock sys) :
    SysWF (stepOp sys op) ∧ NonnegStock (stepOp sys op) := by
  cases hres : applyOp sys op with
  | error e =>
    simp only [stepOp, hres]
    exact ⟨hwf, hnn⟩
  | ok sys' =>
    have hstep : stepOp sys op = sys' := by simp only [stepOp, hres]
    rw [hstep]
    cases op with
    | adjustStock id adj =>
      simp only [applyOp] at hres
      split at hres
      · cases hres
      · next st hadj =>
        simp only [Except.ok.injEq] at hres
        subst hres
        obtain ⟨hge, hst⟩ := adjust_stock_ok_inv hadj
        refine ⟨⟨hwf.1, hwf.2⟩, ?_⟩
        intro j
        subst hst
        by_cases hj : j = id
        · subst hj
          simp only [updQty, if_pos rfl]
          exact hge
        · simp only [updQty, if_neg hj]
          exact hnn j
    | confirmOrder i =>
      simp only [applyOp] at hres
      split at hres
      · cases hres
      · next so hso =>
        split at hres
        · cases hres
        · next st so' hco =>
          simp only [Except.ok.injEq] at hres
          subst hres
          obtain ⟨hdraft, hshort, hst, hso'⟩ := confirm_order_ok_inv hco
          obtain ⟨hq, hnd⟩ := hwf.1 so (mem_of_lookup hso)
          constructor
          · refine ⟨?_, hwf.2⟩
            intro x hx
            rcases List.mem_or_eq_of_mem_set hx with hx' | rfl
            · exact hwf.1 x hx'
            · rw [hso']
              exact ⟨hq, hnd⟩
          · intro j
            rw [hst]
            exact decStock_nonneg sys.store so.items hnd
              ((stockShortages_eq_nil_iff sys.store so.items).mp hshort) hnn j
    | cancelOrder i =>
      simp only [applyOp] at hres
      split at hres
      · cases hres
      · next so hso =>
        split at hres
        · cases hres
        · next st so' hco =>
          simp only [Except.ok.injEq] at hres
          subst hres
          obtain ⟨hguard, hst, hso'⟩ := cancel_order_ok_inv hco
          obtain ⟨hq, hnd⟩ := hwf.1 so (mem_of_lookup hso)
          constructor
          · refine ⟨?_, hwf.2⟩
            intro x hx
            rcases List.mem_or_eq_of_mem_set hx with hx' | rfl
            · exact hwf.1 x hx'
            · rw [hso']
              exact ⟨hq, hnd⟩
          · intro j
            rw [hst]
            split
            · exact incStock_nonneg sys.store so.items (fun l hl => hq l hl) hnn j
            · exact hnn j
    | receiveOrder i =>
      simp only [applyOp] at hres
      split at hres
      · cases hres
      · next po hpo =>
        split at hres
        · cases hres
        · next st po' hro =>
          simp only [Except.ok.injEq] at hres
          subst hres
          obtain ⟨hstat, hst, hpo'⟩ := receive_order_ok_inv hro
          have hq := hwf.2 po (mem_of_lookup hpo)
          constructor
          · refine ⟨hwf.1, ?_⟩
            intro x hx
            rcases List.mem_or_eq_of_mem_set hx with hx' | rfl
            · exact hwf.2 x hx'
            · rw [hpo']
              exact hq
          · intro j
            rw [hst]
            exact incStockPO_nonneg sys.store po.items (fun l hl => hq l hl) hnn j

/-- Request sequences preserve well-formedness and non-negative stock. -/
lemma runOps_preserves (sys : Sys) (ops : List Op)
    (hwf : SysWF sys) (hnn : NonnegStock sys) :
    SysWF (runOps sys ops) ∧ NonnegStock (runOps sys ops) := by
  induction ops generalizing sys with
  | nil => exact ⟨hwf, hnn⟩
  | cons op ops ih =>
    have h := stepOp_preserves sys op hwf hnn
    exact ih (stepOp sys op) h.1 h.2

/-! ## Claim theorems -/

/-- C1: for every SalesOrder in status `draft` whose every line satisfies
`Item.quantity ≥ line.quantity`, `confirm_order` succeeds, decrements each
referenced Item's quantity by that line's quantity, and sets the order
status to `confirmed`; `confirm_order` is allowed only from `draft` and is
rejected for any other status. -/
theorem confirm_order_draft_spec (s : Store) (so : SalesOrder)
    (hnd : (so.items.map SalesOrderItem.itemId).Nodup) :
    (so.status = SOStatus.draft →
      (∀ l ∈ so.items, l.quantity ≤ (s l.itemId).quantity) →
      confirm_order s so =
        .ok (decStock s so.items, { so with status := SOStatus.confirmed }) ∧
      (∀ l ∈ so.items,
        (decStock s so.items l.itemId).quantity = (s l.itemId).quantity - l.quantity) ∧
      (∀ id : Nat, id ∉ so.items.map SalesOrderItem.itemId →
        decStock s so.items id = s id)) ∧
    (so.status ≠ SOStatus.draft →
      confirm_order s so = .error (.badRequest "Can only confirm draft orders")) := by
  constructor
  · intro hdraft hav
    have hnil : stockShortages s so.items = [] :=
      (stockShortages_eq_nil_iff s so.items).mpr fun l hl => not_lt.mpr (hav l hl)
    refine ⟨?_, fun l hl => decStock_line s so.items hnd l hl,
            fun id hid => decStock_untouched s so.items id hid⟩
    rw [confirm_order, if_neg (fun h => h hdraft), if_pos (by rw [hnil]; rfl)]
  · intro hne
    rw [confirm_order, if_pos hne]

/-- C2: for every `draft` SalesOrder with at least one line short on stock,
`confirm_order` is rejected with an insufficient-stock error listing every
failing line as `{item, required, available}`, and nothing is mutated
(all-or-nothing): the persisted state after the request equals the state
before it. -/
theorem confirm_order_insufficient_rejects (s : Store) (so : SalesOrder)
    (hdraft : so.status = SOStatus.draft)
    (hbad : ∃ l ∈ so.items, (s l.itemId).quantity < l.quantity) :
    confirm_order s so =
      .error (.insufficientStock "Insufficient stock" (stockShortages s so.items)) ∧
    (∀ l ∈ so.items, (s l.itemId).quantity < l.quantity →
      ({ item := (s l.itemId).name, required := l.quantity,
         available := (s l.itemId).quantity } : StockShortage)
        ∈ stockShortages s so.items) ∧
    (∀ (sys : Sys) (i : Nat), sys.store = s → sys.salesOrders[i]? = some so →
      stepOp sys (.confirmOrder i) = sys) := by
  have hne : stockShortages s so.items ≠ [] := by
    rw [Ne, stockShortages_eq_nil_iff]
    push_neg
    obtain ⟨l, hl, hlt⟩ := hbad
    exact ⟨l, hl, hlt⟩
  have herr : confirm_order s so =
      .error (.insufficientStock "Insufficient stock" (stockShortages s so.items)) := by
    rw [confirm_order, if_neg (fun h => h hdraft),
        if_neg (by simpa [List.isEmpty_iff] using hne)]
  refine ⟨herr, ?_, ?_⟩
  · intro l hl hlt
    rw [stockShortages, List.mem_filterMap]
    exact ⟨l, hl, by rw [if_pos hlt]⟩
  · intro sys i hstore hlk
    have herr' : confirm_order sys.store so =
        .error (.insufficientStock "Insufficient stock" (stockShortages s so.items)) := by
      rw [hstore, herr]
    simp only [stepOp, applyOp, hlk, herr']

/-- C4: confirming a draft SalesOrder and then cancelling it (with no
intervening mutation) restores every Item's quantity to its value before
the confirmation — a stock round-trip. -/
theorem confirm_cancel_roundtrip (s s1 s2 : Store) (so so1 so2 : SalesOrder)
    (h1 : confirm_order s so = .ok (s1, so1))
    (h2 : cancel_order s1 so1 = .ok (s2, so2)) :
    ∀ id : Nat, s2 id = s id := by
  obtain ⟨hdraft, hshort, hs1, hso1⟩ := confirm_order_ok_inv h1
  obtain ⟨hguard, hs2, hso2⟩ := cancel_order_ok_inv h2
  intro id
  rw [hs2, if_pos (by rw [hso1]; exact Or.inl rfl), hso1]
  show incStock s1 so.items id = s id
  rw [hs1, incStock_apply, decStock_apply, deltaFor_neg_map]
  dsimp only
  have harith :
      (s id).quantity + -deltaFor (so.items.map fun l => (l.itemId, l.quantity)) id +
        deltaFor (so.items.map fun l => (l.itemId, l.quantity)) id = (s id).quantity := by
    omega
  rw [harith]

/-- C9: `receive_order` succeeds exactly when the PurchaseOrder status is
`approved` or `pending`: it increments each line's Item quantity by the
line quantity and sets the status to `received`; from any other status it
is rejected and nothing is mutated. -/
theorem receive_order_spec (s : Store) (po : PurchaseOrder)
    (hnd : (po.items.map PurchaseOrderItem.itemId).Nodup) :
    ((po.status = POStatus.approved ∨ po.status = POStatus.pending) →
      receive_order s po =
        .ok (incStockPO s po.items, { po with status := POStatus.received }) ∧
      (∀ l ∈ po.items,
        (incStockPO s po.items l.itemId).quantity = (s l.itemId).quantity + l.quantity) ∧
      (∀ id : Nat, id ∉ po.items.map PurchaseOrderItem.itemId →
        incStockPO s po.items id = s id)) ∧
    (¬ (po.status = POStatus.approved ∨ po.status = POStatus.pending) →
      (∃ e : ApiErr, receive_order s po = .error e) ∧
      (∀ (sys : Sys) (i : Nat), sys.store = s → sys.purchaseOrders[i]? = some po →
        stepOp sys (.receiveOrder i) = sys)) := by
  constructor
  · intro hstat
    have hnrec : po.status ≠ POStatus.received := by
      rcases hstat with h | h <;> rw [h] <;> intro hc <;> cases hc
    refine ⟨?_, fun l hl => incStockPO_line s po.items hnd l hl,
            fun id hid => incStockPO_untouched s po.items id hid⟩
    rw [receive_order, if_neg hnrec,
        if_neg (by rcases hstat with h | h <;> simp [h])]
  · intro hstat
    have herr : ∃ e : ApiErr, receive_order s po = .error e := by
      by_cases hrec : po.status = POStatus.received
      · exact ⟨_, by rw [receive_order, if_pos hrec]⟩
      · rw [not_or] at hstat
        exact ⟨_, by rw [receive_order, if_neg hrec, if_pos ⟨hstat.1, hstat.2⟩]⟩
    refine ⟨herr, ?_⟩
    intro sys i hstore hlk
    obtain ⟨e, he⟩ := herr
    have he' : receive_order sys.store po = .error e := by rw [hstore, he]
    simp only [stepOp, applyOp, hlk, he']

/-- C3: starting from a well-formed state with all Item quantities ≥ 0,
every sequence of confirm/receive/cancel/adjust requests keeps every
Item.quantity ≥ 0; a rejected request persists nothing, and a stock
adjustment that would drive a quantity negative is rejected with an error
rather than clamped to zero. -/
theorem stock_never_negative (sys : Sys) (ops : List Op)
    (hwf : SysWF sys) (hnn : NonnegStock sys) :
    NonnegStock (runOps sys ops) ∧
    (∀ (op : Op) (e : ApiErr), applyOp sys op = .error e → stepOp sys op = sys) ∧
    (∀ (id : Nat) (adj : Int), (sys.store id).quantity + adj < 0 →
      applyOp sys (.adjustStock id adj) =
        .error (.badRequest "Cannot reduce stock below zero")) := by
  refine ⟨(runOps_preserves sys ops hwf hnn).2, ?_, ?_⟩
  · intro op e h
    simp only [stepOp, h]
  · intro id adj h
    simp only [applyOp, adjust_stock, if_pos h]

/-- C5 (counterexample): the totals invariant fails after a line-item
*delete*: deleting the only line of a freshly computed SalesOrder leaves
`total_amount` at its old value while the line subtotals now sum to 0. -/
theorem totals_stale_after_delete :
    (SalesOrder.deleteItem demoSOWithLine 0).total_amount ≠
      ((SalesOrder.deleteItem demoSOWithLine 0).items.map SalesOrderItem.subtotal).sum
        - (SalesOrder.deleteItem demoSOWithLine 0).discount
        + (SalesOrder.deleteItem demoSOWithLine 0).tax
        + (SalesOrder.deleteItem demoSOWithLine 0).shipping_cost := by
  simp [demoSOWithLine, emptySO, SalesOrder.createItem, SalesOrder.calculate_totals,
        SalesOrder.deleteItem, SalesOrderItem.subtotal, List.eraseIdx]

/-- C5 (amended): after every line-item *create or update* the stored
totals of a SalesOrder or Quote satisfy
`subtotal = Σ line.subtotal` and
`total = subtotal - discount + tax + shipping_cost` (the `save` hooks
recompute synchronously); deletion fires no hook. -/
theorem totals_recomputed_on_line_save :
    (∀ (so : SalesOrder) (l : SalesOrderItem), (so.createItem l).totalsOk) ∧
    (∀ (so : SalesOrder) (i : Nat) (l : SalesOrderItem), (so.updateItem i l).totalsOk) ∧
    (∀ (q : Quote) (l : QuoteItem), (q.createItem l).totalsOk) ∧
    (∀ (q : Quote) (i : Nat) (l : QuoteItem), (q.updateItem i l).totalsOk) := by
  refine ⟨?_, ?_, ?_, ?_⟩ <;> intros <;> exact ⟨rfl, rfl⟩

/-- C7: `create_revision` can never insert the revision row: the attempted
row carries the original's quote number (with `version + 1`, status
`draft`), and `Quote.quote_number` is `unique=True`, so the original row
itself makes the INSERT violate the unique constraint for every stored
quote. -/
theorem create_revision_always_rejected (db : List Quote) (i : Nat) (orig : Quote)
    (h : db[i]? = some orig) :
    create_revision db i = .error ApiErr.uniqueViolation ∧
    (reviseQuote orig).quote_number = orig.quote_number ∧
    (reviseQuote orig).version = orig.version + 1 ∧
    (reviseQuote orig).status = QStatus.draft := by
  refine ⟨?_, rfl, rfl, rfl⟩
  simp only [create_revision, h]
  rw [if_pos]
  simp only [List.any_eq_true, decide_eq_true_eq]
  exact ⟨orig, mem_of_lookup h, rfl⟩

/-- C6 (counterexample): after a successful conversion the stored quote's
status is `converted`, so the second `convert_to_order` is rejected by the
status guard with the not-accepted error — not with the "already converted"
error the claim names (that guard is unreachable after a normal
conversion). -/
theorem convert_second_error_not_already_converted :
    demoConvertedQuote.status = QStatus.converted ∧
    demoConvertedQuote.sales_order.isSome = true ∧
    convert_to_order demoStore ["SO-9"] demoConvertedQuote (some "SO-10") =
      .error (.badRequest "Only accepted quotes can be converted to orders") ∧
    ApiErr.badRequest "Only accepted quotes can be converted to orders" ≠
      ApiErr.badRequest "Quote has already been converted to an order" := by
  refine ⟨rfl, rfl, rfl, by decide⟩

/-- C6 (amended): on an accepted, unlinked quote with sufficient stock and
a fresh non-empty order number, the first `convert_to_order` succeeds,
returns the Item table untouched (conversion reserves no stock) and links
the quote; a second call on the stored — now `converted` — quote is
rejected by the status guard (for any store, table and order number), so
the link set by the first call is never overwritten. -/
theorem convert_to_order_twice (s : Store) (existing : List String) (q : Quote)
    (n : String) (hacc : q.status = QStatus.accepted)
    (hlink : q.sales_order = none)
    (hav : ∀ l ∈ q.items, ¬ (s l.itemId).quantity < l.quantity)
    (hn : n ≠ "") (hfresh : n.toUpper ∉ existing) :
    convert_to_order s existing q (some n) =
      .ok (s, { q with sales_order := some (quoteToSalesOrder q n),
                       status := QStatus.converted },
           quoteToSalesOrder q n) ∧
    (∀ (s2 : Store) (ex2 : List String) (n2 : Option String),
      convert_to_order s2 ex2
          { q with sales_order := some (quoteToSalesOrder q n),
                   status := QStatus.converted } n2 =
        .error (.badRequest "Only accepted quotes can be converted to orders")) := by
  have hempty : (stockShortagesQ s q.items).isEmpty = true := by
    rw [List.isEmpty_iff]
    exact (stockShortagesQ_eq_nil_iff s q.items).mpr hav
  constructor
  · rw [convert_to_order.eq_def]
    simp only [hacc, hlink]
    simp [hempty, hn, hfresh]
  · intro s2 ex2 n2
    rw [convert_to_order.eq_def, if_pos (by simp)]

/-- C8: from `under_review` or `submitted` with a fresh non-empty quote
number, `create_quote` inserts a Quote copying customer/contact from the
RFQ whose items correspond 1:1 to the RFQ items (requested_quantity →
quantity, the Item's current unit price snapshotted, notes carried over),
with recomputed totals, and sets the RFQ status to `quoted` leaving the
RFQ items in place; it is rejected from any other status, and rejected
when no quote number is supplied. -/
theorem create_quote_spec (s : Store) (db : List Quote) (rfq : RFQ)
    (qn dt nt : String) :
    ((rfq.status = RFQStatus.under_review ∨ rfq.status = RFQStatus.submitted) →
      qn ≠ "" →
      (∀ q ∈ db, q.quote_number ≠ qn.toUpper) →
      create_quote s db rfq (some qn) dt nt =
        .ok (db ++ [rfqToQuote s rfq qn dt nt],
             { rfq with status := RFQStatus.quoted },
             rfqToQuote s rfq qn dt nt) ∧
      (rfqToQuote s rfq qn dt nt).customer = rfq.customer ∧
      (rfqToQuote s rfq qn dt nt).contact = rfq.contact ∧
      (rfqToQuote s rfq qn dt nt).items = rfq.items.map (fun ri =>
        { itemId := ri.itemId, quantity := ri.requested_quantity,
          unit_price := (s ri.itemId).unit_price, discount := 0,
          notes := ri.notes }) ∧
      Quote.totalsOk (rfqToQuote s rfq qn dt nt) ∧
      ({ rfq with status := RFQStatus.quoted }).items = rfq.items) ∧
    (¬ (rfq.status = RFQStatus.under_review ∨ rfq.status = RFQStatus.submitted) →
      create_quote s db rfq (some qn) dt nt =
        .error (.badRequest "RFQ must be under review to create quote")) ∧
    ((rfq.status = RFQStatus.under_review ∨ rfq.status = RFQStatus.submitted) →
      create_quote s db rfq none dt nt =
        .error (.badRequest "quote_number is required")) := by
  refine ⟨?_, ?_, ?_⟩
  · intro hstat hqn hfresh
    have hany : db.any (fun q => q.quote_number = qn.toUpper) = false := by
      rw [List.any_eq_false]
      intro q hq
      simpa using hfresh q hq
    refine ⟨?_, rfl, rfl, rfl, ⟨rfl, rfl⟩, rfl⟩
    rw [create_quote.eq_def, if_neg (by rcases hstat with h | h <;> simp [h])]
    simp [hqn, hany]
  · intro hstat
    rw [not_or] at hstat
    rw [create_quote.eq_def, if_pos ⟨hstat.1, hstat.2⟩]
  · intro hstat
    rw [create_quote.eq_def, if_neg (by rcases hstat with h | h <;> simp [h])]

/-- C10: through the public add-item interface, creating a SalesOrder line
is rejected with a validation error whenever the referenced Item's current
quantity is below the requested line quantity — a stock gate already at
line-creation time — even though a successful line creation never changes
any Item's quantity. -/
theorem add_item_stock_gate (s : Store) (so : SalesOrder) (inp : SOItemInput) :
    ((so.status = SOStatus.draft ∨ so.status = SOStatus.confirmed) →
      1 ≤ inp.quantity → (0.01 : Rat) ≤ inp.unit_price →
      (s inp.itemId).quantity < inp.quantity →
      add_item s so inp = .error (.badRequest "Insufficient stock")) ∧
    (∀ (st : Store) (so' : SalesOrder),
      add_item s so inp = .ok (st, so') →
      st = s ∧
      so' = SalesOrder.createItem so
        { itemId := inp.itemId, quantity := inp.quantity,
          unit_price := inp.unit_price, discount := inp.discount }) := by
  constructor
  · intro hstat hq hp hshort
    rw [add_item, if_neg (by rcases hstat with h | h <;> simp [h]),
        if_neg (by omega), if_neg (not_lt.mpr hp), if_pos hshort]
  · intro st so' h
    rw [add_item] at h
    split at h
    · cases h
    · split at h
      · cases h
      · split at h
        · cases h
        · split at h
          · cases h
          · simp only [Except.ok.injEq, Prod.mk.injEq] at h
            exact ⟨h.1.symm, h.2.symm⟩

/-! ## Witnesses: each hypothesis-bearing claim theorem evaluated on a
concrete fixture -/

theorem confirm_order_draft_spec_witness :
    (demoDraftSO.items.map SalesOrderItem.itemId).Nodup ∧
    confirm_order demoStore demoDraftSO =
      .ok (decStock demoStore demoDraftSO.items,
           { demoDraftSO with status := SOStatus.confirmed }) :=
  ⟨by decide,
   ((confirm_order_draft_spec demoStore demoDraftSO (by decide)).1 rfl
      (by decide)).1⟩

theorem confirm_order_insufficient_rejects_witness :
    demoShortSO.status = SOStatus.draft ∧
    (∃ l ∈ demoShortSO.items, (demoStore l.itemId).quantity < l.quantity) ∧
    confirm_order demoStore demoShortSO =
      .error (.insufficientStock "Insufficient stock"
        (stockShortages demoStore demoShortSO.items)) :=
  ⟨rfl, by decide,
   (confirm_order_insufficient_rejects demoStore demoShortSO rfl (by decide)).1⟩

theorem stock_never_negative_witness :
    SysWF demoSys ∧ NonnegStock demoSys ∧
    NonnegStock (runOps demoSys demoOps) := by
  have hwf : SysWF demoSys := by
    unfold SysWF
    decide
  have hnn : NonnegStock demoSys := fun id => by norm_num [demoSys, demoStore]
  exact ⟨hwf, hnn, (stock_never_negative demoSys demoOps hwf hnn).1⟩

theorem confirm_cancel_roundtrip_witness :
    confirm_order demoStore demoDraftSO = .ok (demoConfirmed.1, demoConfirmed.2) ∧
    cancel_order demoConfirmed.1 demoConfirmed.2 =
      .ok (demoCancelled.1, demoCancelled.2) ∧
    ∀ id : Nat, demoCancelled.1 id = demoStore id := by
  have h1 : confirm_order demoStore demoDraftSO =
      .ok (demoConfirmed.1, demoConfirmed.2) := rfl
  have h2 : cancel_order demoConfirmed.1 demoConfirmed.2 =
      .ok (demoCancelled.1, demoCancelled.2) := rfl
  exact ⟨h1, h2, confirm_cancel_roundtrip _ _ _ _ _ _ h1 h2⟩

theorem convert_to_order_twice_witness :
    demoAcceptedQuote.status = QStatus.accepted ∧
    demoAcceptedQuote.sales_order = none ∧
    (∀ l ∈ demoAcceptedQuote.items, ¬ (demoStore l.itemId).quantity < l.quantity) ∧
    "SO-9" ≠ "" ∧ "SO-9".toUpper ∉ ([] : List String) ∧
    convert_to_order demoStore [] demoAcceptedQuote (some "SO-9") =
      .ok (demoStore,
           { demoAcceptedQuote with
               sales_order := some (quoteToSalesOrder demoAcceptedQuote "SO-9"),
               status := QStatus.converted },
           quoteToSalesOrder demoAcceptedQuote "SO-9") :=
  ⟨rfl, rfl, by decide, by decide, by decide,
   (convert_to_order_twice demoStore [] demoAcceptedQuote "SO-9" rfl rfl
      (by decide) (by decide) (by decide)).1⟩

theorem create_revision_always_rejected_witness :
    ([demoAcceptedQuote][0]? = some demoAcceptedQuote) ∧
    create_revision [demoAcceptedQuote] 0 = .error ApiErr.uniqueViolation :=
  ⟨rfl,
   (create_revision_always_rejected [demoAcceptedQuote] 0 demoAcceptedQuote rfl).1⟩

theorem create_quote_spec_witness :
    (demoRFQ.status = RFQStatus.under_review ∨
      demoRFQ.status = RFQStatus.submitted) ∧
    "q-7" ≠ "" ∧
    (∀ q ∈ ([] : List Quote), q.quote_number ≠ "q-7".toUpper) ∧
    create_quote demoStore [] demoRFQ (some "q-7") "dt" "nt" =
      .ok ([rfqToQuote demoStore demoRFQ "q-7" "dt" "nt"],
           { demoRFQ with status := RFQStatus.quoted },
           rfqToQuote demoStore demoRFQ "q-7" "dt" "nt") :=
  ⟨Or.inl rfl, by decide, by simp,
   ((create_quote_spec demoStore [] demoRFQ "q-7" "dt" "nt").1
      (Or.inl rfl) (by decide) (by simp)).1⟩

theorem receive_order_spec_witness :
    (demoPO.items.map PurchaseOrderItem.itemId).Nodup ∧
    (demoPO.status = POStatus.approved ∨ demoPO.status = POStatus.pending) ∧
    receive_order demoStore demoPO =
      .ok (incStockPO demoStore demoPO.items,
           { demoPO with status := POStatus.received }) :=
  ⟨by decide, Or.inl rfl,
   ((receive_order_spec demoStore demoPO (by decide)).1 (Or.inl rfl)).1⟩

theorem add_item_stock_gate_witness :
    (demoDraftSO.status = SOStatus.draft ∨
      demoDraftSO.status = SOStatus.confirmed) ∧
    1 ≤ demoInput.quantity ∧ (0.01 : Rat) ≤ demoInput.unit_price ∧
    (demoStore demoInput.itemId).quantity < demoInput.quantity ∧
    add_item demoStore demoDraftSO demoInput =
      .error (.badRequest "Insufficient stock") :=
  ⟨Or.inl rfl, by decide, by norm_num [demoInput], by decide,
   (add_item_stock_gate demoStore demoDraftSO demoInput).1 (Or.inl rfl)
     (by decide) (by norm_num [demoInput]) (by decide)⟩
